import Mathlib

/-!
# Verification of the veezy-backend view-deduplication engine

Shallow embedding of the view-counting core of the repository: the
in-memory item table (`videos`), the deduplication index (`viewedIPs`),
and the durable layer (a JSON data file in `server.js`/`part_002`/
`part_004`, a MongoDB pair of collections in `part_001`/`part_003`).

JS objects keyed by video id are modelled as association lists over
`String`; JS `Set`s of client IPs as `List String` with membership-guarded
insertion; timestamps as `Nat` (milliseconds); JS numbers holding view
counts as `Int` (some revisions can store negative values).  Each HTTP
handler becomes a function from the state (plus request parameters and
the current time) to a response paired with the successor state.

Namespaces: `SJ` embeds `src/server.js`, `P1` embeds
`src/unnamed/part_001` (whose view route coincides with
`src/unnamed/part_003`), `P2` embeds `src/unnamed/part_002`, `P4` embeds
`src/unnamed/part_004`.
-/

namespace Veezy

/-- Association-list lookup, mirroring JS object property access
`m[k]` (`none` plays the role of `undefined`). -/
def alookup {α : Type} : List (String × α) → String → Option α
  | [], _ => none
  | (k', v) :: rest, k => if k' = k then some v else alookup rest k

/-- Association-list update, mirroring JS property assignment `m[k] = v`. -/
def aset {α : Type} : List (String × α) → String → α → List (String × α)
  | [], k, v => [(k, v)]
  | (k', v') :: rest, k, v =>
    if k' = k then (k, v) :: rest else (k', v') :: aset rest k v

/-- Association-list removal, mirroring JS `delete m[k]`. -/
def aerase {α : Type} : List (String × α) → String → List (String × α)
  | [], _ => []
  | (k', v') :: rest, k =>
    if k' = k then aerase rest k else (k', v') :: aerase rest k

/-- JS `Set.add`: inserts the client unless already present. -/
def sadd (s : List String) (c : String) : List String :=
  if c ∈ s then s else s ++ [c]

/-- Item record of the JSON-file revisions (`server.js`, `part_002`,
`part_004`): a `views` count and an optional `uploadTime` (records
created by some admin paths momentarily lack the field). -/
structure VideoRec where
  views : Int
  uploadTime : Option Nat
deriving DecidableEq, Repr

namespace SJ

/-- In-memory state of `server.js` plus the persisted `data.json`
snapshot (`saveData` writes `{videos, viewedIPs}` to the file). -/
structure State where
  videos : List (String × VideoRec)
  viewedIPs : List (String × List String)
  dataFile : Option (List (String × VideoRec) × List (String × List String))
deriving DecidableEq

/-- `saveData()` of `server.js`: persists the whole in-memory state. -/
def saveData (s : State) : State :=
  { s with dataFile := some (s.videos, s.viewedIPs) }

/-- `if (!videos[videoId]) videos[videoId] = {views: 0, uploadTime: now}` -/
def ensureVideo (m : List (String × VideoRec)) (i : String) (now : Nat) :
    List (String × VideoRec) :=
  match alookup m i with
  | some _ => m
  | none => aset m i { views := 0, uploadTime := some now }

/-- `if (!viewedIPs[videoId]) viewedIPs[videoId] = new Set()` -/
def ensureIPs (m : List (String × List String)) (i : String) :
    List (String × List String) :=
  match alookup m i with
  | some _ => m
  | none => aset m i []

inductive ViewResp
  | ok (views : Int) (alreadyViewed : Bool)
  | badRequest
deriving DecidableEq

/-- `POST /videos/:id/view` of `server.js` (lines 109-141): ensure the
record and the IP set exist, increment and persist only when the client
IP is unseen, then answer with the current count and
`viewedIPs[videoId].has(clientIP)` — the membership test is evaluated
after the insertion. -/
def recordView (s : State) (videoId clientIP : String) (now : Nat) :
    ViewResp × State :=
  if videoId = "" then (ViewResp.badRequest, s) else
  let videos1 := ensureVideo s.videos videoId now
  let ips1 := ensureIPs s.viewedIPs videoId
  let ipSet := (alookup ips1 videoId).getD []
  let s2 : State :=
    if clientIP ∈ ipSet then
      { s with videos := videos1, viewedIPs := ips1 }
    else
      let vrec := (alookup videos1 videoId).getD { views := 0, uploadTime := none }
      saveData { s with
        videos := aset videos1 videoId { vrec with views := vrec.views + 1 },
        viewedIPs := aset ips1 videoId (sadd ipSet clientIP) }
  (ViewResp.ok
    ((alookup s2.videos videoId).getD { views := 0, uploadTime := none }).views
    (decide (clientIP ∈ (alookup s2.viewedIPs videoId).getD [])), s2)

inductive GetResp
  | ok (found : VideoRec)
  | badRequest
deriving DecidableEq

/-- `GET /videos/:id` of `server.js` (lines 93-106): answers
`videos[videoId] || {views: 0, uploadTime: now}` without touching the
state — an unseen id yields a default record, not an error. -/
def getVideo (s : State) (videoId : String) (now : Nat) : GetResp × State :=
  if videoId = "" then (GetResp.badRequest, s)
  else (GetResp.ok ((alookup s.videos videoId).getD
    { views := 0, uploadTime := some now }), s)

inductive SetViewsResp
  | ok (newViewCount : Int)
  | badRequest
deriving DecidableEq

/-- `POST /admin/videos/:id/set-views` of `server.js` (lines 223-243):
rejects an absent/NaN body value (modelled as `none`) and a negative
value, otherwise overwrites `views` with the given integer (creating the
record as `{uploadTime: now}` first when absent) and persists. -/
def setViews (s : State) (videoId : String) (views : Option Int) (now : Nat) :
    SetViewsResp × State :=
  if videoId = "" then (SetViewsResp.badRequest, s) else
  match views with
  | none => (SetViewsResp.badRequest, s)
  | some v =>
    if v < 0 then (SetViewsResp.badRequest, s) else
    let rec0 :=
      match alookup s.videos videoId with
      | some r => r
      | none => { views := 0, uploadTime := some now }
      -- the record is created as `{uploadTime: now}` and `views` is
      -- assigned on the very next source line, so the placeholder 0 is
      -- never observable
    (SetViewsResp.ok v,
      saveData { s with videos := aset s.videos videoId { rec0 with views := v } })

inductive SetTimeResp
  | ok (newUploadTime : Nat)
  | badRequest
deriving DecidableEq

/-- `POST /admin/videos/:id/set-upload-time` of `server.js` (lines
146-173): rejects an invalid timestamp (modelled as `none`) and a future
one (`newTimeDate > now`), otherwise creates the record as `{views: 0}`
when absent, overwrites `uploadTime`, and persists. -/
def setUploadTime (s : State) (videoId : String) (newTime : Option Nat)
    (now : Nat) : SetTimeResp × State :=
  if videoId = "" then (SetTimeResp.badRequest, s) else
  match newTime with
  | none => (SetTimeResp.badRequest, s)
  | some t =>
    if now < t then (SetTimeResp.badRequest, s) else
    let rec0 :=
      match alookup s.videos videoId with
      | some r => r
      | none => { views := 0, uploadTime := none }
    (SetTimeResp.ok t,
      saveData { s with videos := aset s.videos videoId { rec0 with uploadTime := some t } })

/-- One iteration of the `updates.forEach` body of
`POST /admin/videos/bulk-update-times` (`server.js` lines 176-215): an
update with a falsy id, an invalid timestamp (`none`) or a future
timestamp is recorded as an error and skipped, otherwise the record is
created as `{views: 0}` when absent and its `uploadTime` overwritten. -/
def bulkStep (now : Nat) (s : State) (u : String × Option Nat) : State :=
  match u with
  | (_, none) => s
  | (id, some t) =>
    if id = "" then s else
    if now < t then s else
    let rec0 :=
      match alookup s.videos id with
      | some r => r
      | none => { views := 0, uploadTime := none }
    { s with videos := aset s.videos id { rec0 with uploadTime := some t } }

/-- `POST /admin/videos/bulk-update-times` of `server.js`: applies every
update in order and then persists once. -/
def bulkUpdateTimes (s : State) (updates : List (String × Option Nat))
    (now : Nat) : State :=
  saveData (updates.foldl (bulkStep now) s)

inductive DeleteResp
  | ok
  | badRequest
  | notFound
deriving DecidableEq

/-- `DELETE /admin/videos/:id` of `server.js` (lines 246-266): 404 when
the record is absent; otherwise deletes the record, deletes the
`viewedIPs` entry when present, and persists. -/
def deleteVideo (s : State) (videoId : String) : DeleteResp × State :=
  if videoId = "" then (DeleteResp.badRequest, s) else
  match alookup s.videos videoId with
  | none => (DeleteResp.notFound, s)
  | some _ =>
    (DeleteResp.ok,
      saveData { s with
        videos := aerase s.videos videoId,
        viewedIPs :=
          if (alookup s.viewedIPs videoId).isSome
          then aerase s.viewedIPs videoId else s.viewedIPs })

/-- Dangling-entry freedom: every item with a Dedup Index entry has an
item record.  (`server.js` creates the record before the index entry and
deletes both together, so this holds in every reachable state.) -/
def Inv (s : State) : Prop :=
  ∀ i, (alookup s.viewedIPs i).isSome → (alookup s.videos i).isSome

/-- All stored view counts are non-negative. -/
def NonNeg (s : State) : Prop :=
  ∀ i r, alookup s.videos i = some r → 0 ≤ r.views

end SJ

namespace P2

/-- In-memory state of `part_002` plus the persisted `viewedIPs.json`
file (`part_002` persists only the dedup index, and only inside the view
route). -/
structure State where
  videos : List (String × VideoRec)
  viewedIPs : List (String × List String)
  ipsFile : Option (List (String × List String))
deriving DecidableEq

structure ViewResp where
  views : Int
  alreadyViewed : Bool
deriving DecidableEq

/-- `POST /videos/:id/view` of `part_002` (lines 50-77): like the
`server.js` route but with an extra backfill branch (`else if
(!videos[videoId].uploadTime)`) and persisting only `viewedIPs`. -/
def recordView (s : State) (videoId clientIP : String) (now : Nat) :
    ViewResp × State :=
  let videos1 :=
    match alookup s.videos videoId with
    | none => aset s.videos videoId { views := 0, uploadTime := some now }
    | some r =>
      match r.uploadTime with
      | none => aset s.videos videoId { r with uploadTime := some now }
      | some _ => s.videos
  let ips1 :=
    match alookup s.viewedIPs videoId with
    | some _ => s.viewedIPs
    | none => aset s.viewedIPs videoId []
  let ipSet := (alookup ips1 videoId).getD []
  let s2 : State :=
    if clientIP ∈ ipSet then
      { s with videos := videos1, viewedIPs := ips1 }
    else
      let vrec := (alookup videos1 videoId).getD { views := 0, uploadTime := none }
      let ips2 := aset ips1 videoId (sadd ipSet clientIP)
      { videos := aset videos1 videoId { vrec with views := vrec.views + 1 },
        viewedIPs := ips2,
        ipsFile := some ips2 }
  (⟨((alookup s2.videos videoId).getD { views := 0, uploadTime := none }).views,
    decide (clientIP ∈ (alookup s2.viewedIPs videoId).getD [])⟩, s2)

inductive SetViewsResp
  | ok (newViewCount : Int)
  | badRequest
deriving DecidableEq

/-- `POST /admin/videos/:id/set-views` of `part_002` (lines 145-159):
rejects only an absent/NaN value — a negative integer is accepted and
stored; nothing is persisted. -/
def setViews (s : State) (videoId : String) (views : Option Int) (now : Nat) :
    SetViewsResp × State :=
  match views with
  | none => (SetViewsResp.badRequest, s)
  | some v =>
    let rec0 :=
      match alookup s.videos videoId with
      | some r => r
      | none => { views := 0, uploadTime := some now }
    (SetViewsResp.ok v,
      { s with videos := aset s.videos videoId { rec0 with views := v } })

inductive DeleteResp
  | ok
  | notFound
deriving DecidableEq

/-- `DELETE /admin/videos/:id` of `part_002` (lines 162-169): deletes
only `videos[videoId]` — the `viewedIPs` entry is left behind. -/
def deleteVideo (s : State) (videoId : String) : DeleteResp × State :=
  match alookup s.videos videoId with
  | none => (DeleteResp.notFound, s)
  | some _ => (DeleteResp.ok, { s with videos := aerase s.videos videoId })

end P2

namespace P1

/-- Item record of the MongoDB revisions (`part_001`/`part_003`): the
JSON-file fields plus `title` and the `loading` flag the view route
toggles. -/
structure VideoRec where
  views : Int
  uploadTime : Option Nat
  title : String
  loading : Bool
deriving DecidableEq, Repr

/-- Durable MongoDB state consumed by the view route: per-video `views`
counters (the `$inc` target of `Video.updateOne`) and the `ViewedIP`
receipt collection. -/
structure DB where
  dbVideoViews : List (String × Int)
  dbReceipts : List (String × String)
deriving DecidableEq

structure State where
  videos : List (String × VideoRec)
  viewedIPs : List (String × List String)
  db : DB
deriving DecidableEq

/-- `videos[videoId].loading = b` (a no-op when the record is absent). -/
def setLoading (m : List (String × VideoRec)) (i : String) (b : Bool) :
    List (String × VideoRec) :=
  match alookup m i with
  | some r => aset m i { r with loading := b }
  | none => m

/-- `Video.updateOne({videoId}, {$inc: {views: 1}})` without `upsert`:
increments the durable counter only when the document exists. -/
def incDbViews (m : List (String × Int)) (i : String) : List (String × Int) :=
  match alookup m i with
  | some v => aset m i (v + 1)
  | none => m

inductive ViewResp
  | ok (views : Int) (alreadyViewed : Bool)
  | err500
deriving DecidableEq

/-- `POST /videos/:id/view` of `part_001` (lines 116-153), identical in
`part_003` (lines 188-225): ensure the record and IP set, set `loading`,
and on a first-seen client increment the cache, add the index entry and
await the two durable writes.  `durableOk = false` models the first
durable write rejecting: the `catch` answers 500 and the `finally`
clears `loading`, but the in-memory increment and index entry are kept.
On the duplicate path no durable call is made.  The `alreadyViewed`
field re-tests membership after the insertion. -/
def recordView (s : State) (videoId clientIP : String) (now : Nat)
    (durableOk : Bool) : ViewResp × State :=
  let videos1 :=
    match alookup s.videos videoId with
    | some _ => s.videos
    | none => aset s.videos videoId
        { views := 0, uploadTime := some now,
          title := "Video " ++ videoId, loading := true }
  let ips1 :=
    match alookup s.viewedIPs videoId with
    | some _ => s.viewedIPs
    | none => aset s.viewedIPs videoId []
  let videos2 := setLoading videos1 videoId true
  let ipSet := (alookup ips1 videoId).getD []
  if clientIP ∈ ipSet then
    (ViewResp.ok
      ((alookup videos2 videoId).getD
        { views := 0, uploadTime := none, title := "", loading := false }).views
      (decide (clientIP ∈ (alookup ips1 videoId).getD [])),
     { videos := setLoading videos2 videoId false, viewedIPs := ips1, db := s.db })
  else
    let vrec := (alookup videos2 videoId).getD
      { views := 0, uploadTime := none, title := "", loading := false }
    let videos3 := aset videos2 videoId { vrec with views := vrec.views + 1 }
    let ips2 := aset ips1 videoId (sadd ipSet clientIP)
    if durableOk then
      (ViewResp.ok
        ((alookup videos3 videoId).getD
          { views := 0, uploadTime := none, title := "", loading := false }).views
        (decide (clientIP ∈ (alookup ips2 videoId).getD [])),
       { videos := setLoading videos3 videoId false,
         viewedIPs := ips2,
         db := { dbVideoViews := incDbViews s.db.dbVideoViews videoId,
                 dbReceipts := s.db.dbReceipts ++ [(videoId, clientIP)] } })
    else
      (ViewResp.err500,
       { videos := setLoading videos3 videoId false, viewedIPs := ips2, db := s.db })

inductive GetResp
  | ok (found : VideoRec)
  | notFound
deriving DecidableEq

/-- `GET /videos/:id` of `part_001` (lines 108-114): 404 when the item
is absent from the in-memory table, otherwise
`{...video, loading: video.loading || false}`; no state change and no
durable access. -/
def getVideo (s : State) (videoId : String) : GetResp × State :=
  match alookup s.videos videoId with
  | none => (GetResp.notFound, s)
  | some r => (GetResp.ok { r with loading := r.loading || false }, s)

end P1

namespace P4

/-- In-memory state of `part_004` plus the persisted `data.json`
snapshot. -/
structure State where
  videos : List (String × VideoRec)
  viewedIPs : List (String × List String)
  dataFile : Option (List (String × VideoRec) × List (String × List String))
deriving DecidableEq

/-- `saveData()` of `part_004`. -/
def saveData (s : State) : State :=
  { s with dataFile := some (s.videos, s.viewedIPs) }

/-- `GET /videos/:id` of `part_004` (lines 94-97): answers
`videos[videoId] || {views: 0, uploadTime: now}`; no state change. -/
def getVideo (s : State) (videoId : String) (now : Nat) : VideoRec × State :=
  ((alookup s.videos videoId).getD { views := 0, uploadTime := some now }, s)

/-- `POST /admin/videos/:id/set-upload-time` of `part_004` (lines
120-129): no format check and no future-date check — whatever `newTime`
the body carries (possibly absent, modelled as `none`) is stored as the
record's `uploadTime`, then persisted. -/
def setUploadTime (s : State) (videoId : String) (newTime : Option Nat) :
    (Bool × Option Nat) × State :=
  let rec0 :=
    match alookup s.videos videoId with
    | some r => r
    | none => { views := 0, uploadTime := none }
  ((true, newTime),
    saveData { s with videos := aset s.videos videoId { rec0 with uploadTime := newTime } })

end P4

/-- The two startup events the temporal claim is about: the server
starting to accept requests (`app.listen`) and the asynchronous
`loadData()` resolving. -/
inductive StartupEvent
  | listen
  | loadComplete
deriving DecidableEq

/-- JS event-loop fact: a top-level script runs to completion before any
promise continuation runs.  If `app.listen` is invoked in the top-level
script while `loadData()` is still pending, listening starts first; if
it is invoked inside `loadData().then(...)`, load completion comes
first. -/
def startupTrace (listenInSyncScript : Bool) : List StartupEvent :=
  if listenInSyncScript then [StartupEvent.listen, StartupEvent.loadComplete]
  else [StartupEvent.loadComplete, StartupEvent.listen]

/-- `part_003` lines 380-391: `loadData().catch(...)` followed
immediately by `app.listen(PORT, ...)` in the same synchronous script. -/
def part003Startup : List StartupEvent := startupTrace true

/-- `part_001` lines 514-526: `loadData().then(() => app.listen(...))`,
and on load failure the server never listens. -/
def part001Startup : List StartupEvent := startupTrace false

/-- `server.js` lines 284-288: `loadData()` is a synchronous
`fs.readFileSync`-based function, so it returns (completing the load)
before the following `app.listen` call. -/
def serverJsStartup : List StartupEvent :=
  [StartupEvent.loadComplete, StartupEvent.listen]

/-- Whether, in a startup trace, the data load completes before the
server starts accepting requests (decided by whichever of the two events
comes first; a trace with no event counts as vacuously safe). -/
def loadBeforeListen : List StartupEvent → Bool
  | [] => true
  | StartupEvent.loadComplete :: _ => true
  | StartupEvent.listen :: _ => false

/-! ## Association-list and set lemmas -/

theorem alookup_aset_self {α : Type} (m : List (String × α)) (k : String) (v : α) :
    alookup (aset m k v) k = some v := by
  induction m with
  | nil => simp [aset, alookup]
  | cons hd tl ih =>
    obtain ⟨k', v'⟩ := hd
    by_cases h : k' = k <;> simp [aset, alookup, h, ih]

theorem alookup_aset_ne {α : Type} (m : List (String × α)) (k k' : String) (v : α)
    (h : k' ≠ k) : alookup (aset m k v) k' = alookup m k' := by
  induction m with
  | nil => simp [aset, alookup, Ne.symm h]
  | cons hd tl ih =>
    obtain ⟨k₀, v₀⟩ := hd
    by_cases h₀ : k₀ = k
    · subst h₀
      simp [aset, alookup, Ne.symm h]
    · simp only [aset, if_neg h₀, alookup]
      by_cases h₁ : k₀ = k' <;> simp [h₁, ih]

theorem alookup_aerase_self {α : Type} (m : List (String × α)) (k : String) :
    alookup (aerase m k) k = none := by
  induction m with
  | nil => simp [aerase, alookup]
  | cons hd tl ih =>
    obtain ⟨k', v'⟩ := hd
    by_cases h : k' = k <;> simp [aerase, alookup, h, ih]

theorem alookup_aerase_ne {α : Type} (m : List (String × α)) (k k' : String)
    (h : k' ≠ k) : alookup (aerase m k) k' = alookup m k' := by
  induction m with
  | nil => simp [aerase, alookup]
  | cons hd tl ih =>
    obtain ⟨k₀, v₀⟩ := hd
    by_cases h₀ : k₀ = k
    · subst h₀
      simp [aerase, alookup, Ne.symm h, ih]
    · simp only [aerase, if_neg h₀, alookup]
      by_cases h₁ : k₀ = k' <;> simp [h₁, ih]

theorem mem_sadd_self (s : List String) (c : String) : c ∈ sadd s c := by
  by_cases h : c ∈ s <;> simp [sadd, h]

theorem aset_of_alookup_eq {α : Type} (m : List (String × α)) (k : String)
    (v : α) (h : alookup m k = some v) : aset m k v = m := by
  induction m with
  | nil => simp [alookup] at h
  | cons hd tl ih =>
    obtain ⟨k', v'⟩ := hd
    by_cases hk : k' = k
    · subst hk
      have h' : v' = v := by simpa [alookup] using h
      simp [aset, h']
    · simp only [alookup, if_neg hk] at h
      simp [aset, hk, ih h]

theorem aset_aset {α : Type} (m : List (String × α)) (k : String) (v w : α) :
    aset (aset m k v) k w = aset m k w := by
  induction m with
  | nil => simp [aset]
  | cons hd tl ih =>
    obtain ⟨k', v'⟩ := hd
    by_cases hk : k' = k
    · simp [aset, hk]
    · simp [aset, hk, ih]

theorem alookup_aset {α : Type} (m : List (String × α)) (k j : String) (v : α) :
    alookup (aset m k v) j = if j = k then some v else alookup m j := by
  by_cases h : j = k
  · subst h
    simp [alookup_aset_self]
  · simp [h, alookup_aset_ne _ _ _ _ h]

theorem alookup_aerase {α : Type} (m : List (String × α)) (k j : String) :
    alookup (aerase m k) j = if j = k then none else alookup m j := by
  by_cases h : j = k
  · subst h
    simp [alookup_aerase_self]
  · simp [h, alookup_aerase_ne _ _ _ h]

/-! ## Unfolding lemmas for the handler building blocks -/

theorem SJ.ensureVideo_of_some {m : List (String × VideoRec)} {i : String}
    {now : Nat} {r : VideoRec} (h : alookup m i = some r) :
    SJ.ensureVideo m i now = m := by
  simp [SJ.ensureVideo, h]

theorem SJ.ensureVideo_of_none {m : List (String × VideoRec)} {i : String}
    {now : Nat} (h : alookup m i = none) :
    SJ.ensureVideo m i now = aset m i { views := 0, uploadTime := some now } := by
  simp [SJ.ensureVideo, h]

theorem SJ.ensureIPs_of_some {m : List (String × List String)} {i : String}
    {cs : List String} (h : alookup m i = some cs) : SJ.ensureIPs m i = m := by
  simp [SJ.ensureIPs, h]

theorem SJ.ensureIPs_of_none {m : List (String × List String)} {i : String}
    (h : alookup m i = none) : SJ.ensureIPs m i = aset m i [] := by
  simp [SJ.ensureIPs, h]

theorem SJ.alookup_ensureVideo_ne {m : List (String × VideoRec)} {i j : String}
    {now : Nat} (h : j ≠ i) :
    alookup (SJ.ensureVideo m i now) j = alookup m j := by
  cases hm : alookup m i <;>
    simp [SJ.ensureVideo, hm, alookup_aset_ne _ _ _ _ h]

theorem SJ.alookup_ensureIPs_ne {m : List (String × List String)} {i j : String}
    (h : j ≠ i) : alookup (SJ.ensureIPs m i) j = alookup m j := by
  cases hm : alookup m i <;>
    simp [SJ.ensureIPs, hm, alookup_aset_ne _ _ _ _ h]

theorem SJ.alookup_ensureVideo_isSome (m : List (String × VideoRec)) (i : String)
    (now : Nat) : (alookup (SJ.ensureVideo m i now) i).isSome := by
  cases hm : alookup m i <;>
    simp [SJ.ensureVideo, hm, alookup_aset_self]

/-! ## Invariant-preservation lemmas for the `server.js` handlers -/

theorem SJ.Inv_recordView (s : SJ.State) (i c : String) (now : Nat)
    (h : SJ.Inv s) : SJ.Inv (SJ.recordView s i c now).2 := by
  by_cases hi : i = ""
  · simpa [SJ.recordView, hi] using h
  by_cases hmem : c ∈ (alookup (SJ.ensureIPs s.viewedIPs i) i).getD []
  · simp only [SJ.recordView, if_neg hi, if_pos hmem]
    intro j hj
    by_cases hji : j = i
    · subst hji
      exact SJ.alookup_ensureVideo_isSome s.videos j now
    · rw [SJ.alookup_ensureIPs_ne hji] at hj
      rw [SJ.alookup_ensureVideo_ne hji]
      exact h j hj
  · simp only [SJ.recordView, if_neg hi, if_neg hmem, SJ.saveData]
    intro j hj
    by_cases hji : j = i
    · subst hji
      simp [alookup_aset_self]
    · simp only [alookup_aset_ne _ _ _ _ hji, SJ.alookup_ensureIPs_ne hji] at hj
      simp only [alookup_aset_ne _ _ _ _ hji, SJ.alookup_ensureVideo_ne hji]
      exact h j hj

theorem SJ.Inv_setViews (s : SJ.State) (i : String) (v : Option Int) (now : Nat)
    (h : SJ.Inv s) : SJ.Inv (SJ.setViews s i v now).2 := by
  by_cases hi : i = ""
  · simpa [SJ.setViews, hi] using h
  cases v with
  | none => simpa [SJ.setViews, hi] using h
  | some n =>
    by_cases hn : n < 0
    · simpa [SJ.setViews, hi, hn] using h
    · simp only [SJ.setViews, if_neg hi, if_neg hn, SJ.saveData]
      intro j hj
      by_cases hji : j = i
      · subst hji
        simp [alookup_aset_self]
      · simp only [alookup_aset_ne _ _ _ _ hji]
        exact h j hj

theorem SJ.Inv_setUploadTime (s : SJ.State) (i : String) (t : Option Nat)
    (now : Nat) (h : SJ.Inv s) : SJ.Inv (SJ.setUploadTime s i t now).2 := by
  by_cases hi : i = ""
  · simpa [SJ.setUploadTime, hi] using h
  cases t with
  | none => simpa [SJ.setUploadTime, hi] using h
  | some t₀ =>
    by_cases ht : now < t₀
    · simpa [SJ.setUploadTime, hi, ht] using h
    · simp only [SJ.setUploadTime, if_neg hi, if_neg ht, SJ.saveData]
      intro j hj
      by_cases hji : j = i
      · subst hji
        simp [alookup_aset_self]
      · simp only [alookup_aset_ne _ _ _ _ hji]
        exact h j hj

theorem SJ.Inv_deleteVideo (s : SJ.State) (i : String) (h : SJ.Inv s) :
    SJ.Inv (SJ.deleteVideo s i).2 := by
  by_cases hi : i = ""
  · simpa [SJ.deleteVideo, hi] using h
  cases hr : alookup s.videos i with
  | none => simpa [SJ.deleteVideo, hi, hr] using h
  | some r =>
    simp only [SJ.deleteVideo, if_neg hi, hr, SJ.saveData]
    intro j hj
    by_cases hji : j = i
    · subst hji
      by_cases hips : (alookup s.viewedIPs j).isSome
      · simp [hips, alookup_aerase_self] at hj
      · simp only [if_neg hips] at hj
        exact absurd hj hips
    · by_cases hips : (alookup s.viewedIPs i).isSome
      · simp only [if_pos hips, alookup_aerase_ne _ _ _ hji] at hj
        simp only [alookup_aerase_ne _ _ _ hji]
        exact h j hj
      · simp only [if_neg hips] at hj
        simp only [alookup_aerase_ne _ _ _ hji]
        exact h j hj

theorem SJ.Inv_bulkStep (now : Nat) (s : SJ.State) (u : String × Option Nat)
    (h : SJ.Inv s) : SJ.Inv (SJ.bulkStep now s u) := by
  obtain ⟨id, t⟩ := u
  cases t with
  | none => simpa [SJ.bulkStep] using h
  | some t₀ =>
    by_cases hid : id = ""
    · simpa [SJ.bulkStep, hid] using h
    by_cases ht : now < t₀
    · simpa [SJ.bulkStep, hid, ht] using h
    · simp only [SJ.bulkStep, if_neg hid, if_neg ht]
      intro j hj
      by_cases hji : j = id
      · subst hji
        simp [alookup_aset_self]
      · simp only [alookup_aset_ne _ _ _ _ hji]
        exact h j hj

theorem SJ.Inv_bulkUpdateTimes (s : SJ.State) (us : List (String × Option Nat))
    (now : Nat) (h : SJ.Inv s) : SJ.Inv (SJ.bulkUpdateTimes s us now) := by
  have hfold : ∀ (l : List (String × Option Nat)) (s₀ : SJ.State),
      SJ.Inv s₀ → SJ.Inv (l.foldl (SJ.bulkStep now) s₀) := by
    intro l
    induction l with
    | nil => intro s₀ h₀; simpa using h₀
    | cons u rest ih =>
      intro s₀ h₀
      exact ih _ (SJ.Inv_bulkStep now s₀ u h₀)
  exact hfold us s h

/-- The in-memory no-op of `server.js`'s view route on an already-seen
client: when the dangling-entry invariant holds and `(i, c)` is in the
Dedup Index, `recordView` answers the current count with
`alreadyViewed = true` and returns the state — table, index and data
file — completely unchanged. -/
theorem SJ.recordView_seen_noop (s : SJ.State) (i c : String) (now : Nat)
    (hi : i ≠ "") (hinv : SJ.Inv s)
    (hc : c ∈ (alookup s.viewedIPs i).getD []) :
    SJ.recordView s i c now =
      (SJ.ViewResp.ok
        ((alookup s.videos i).getD { views := 0, uploadTime := none }).views
        true, s) := by
  cases hips : alookup s.viewedIPs i with
  | none => simp [hips] at hc
  | some cs =>
    have hc' : c ∈ cs := by simpa [hips] using hc
    have hvid : (alookup s.videos i).isSome := hinv i (by simp [hips])
    obtain ⟨r, hr⟩ := Option.isSome_iff_exists.mp hvid
    simp only [SJ.recordView, if_neg hi, SJ.ensureVideo_of_some hr,
      SJ.ensureIPs_of_some hips, hips, Option.getD_some, if_pos hc', hr]
    simp [hc']

/-- The in-memory no-op of `part_001`/`part_003`'s view route on an
already-seen client: for a stored record whose `loading` flag is at rest
(`false`, as every operation of those revisions leaves it), the call
answers the current count with `alreadyViewed = true`, performs no
durable call at all (for either value of `durableOk`), and returns the
state unchanged — the `loading := true` write is undone by the `finally`
clause. -/
theorem P1.recordView_duplicate_noop (s : P1.State) (i c : String) (now : Nat)
    (ok : Bool) (r : P1.VideoRec) (cs : List String)
    (hr : alookup s.videos i = some r) (hld : r.loading = false)
    (hcs : alookup s.viewedIPs i = some cs) (hc : c ∈ cs) :
    P1.recordView s i c now ok = (P1.ViewResp.ok r.views true, s) := by
  obtain ⟨vw, ut, tt, ld⟩ := r
  have hld' : ld = false := hld
  subst hld'
  have h2 : P1.setLoading s.videos i true
      = aset s.videos i ⟨vw, ut, tt, true⟩ := by
    simp [P1.setLoading, hr]
  have h3 : alookup (aset s.videos i (⟨vw, ut, tt, true⟩ : P1.VideoRec)) i
      = some ⟨vw, ut, tt, true⟩ := alookup_aset_self _ _ _
  have h4 : P1.setLoading (aset s.videos i ⟨vw, ut, tt, true⟩) i false
      = s.videos := by
    simp [P1.setLoading, h3, aset_aset, aset_of_alookup_eq _ _ _ hr]
  simp only [P1.recordView, hr, hcs, Option.getD_some, if_pos hc, h2, h3, h4]
  simp [hc]

/-- Pointwise effect of `server.js`'s view route on stored records:
every record present before the call is still present afterwards, with a
count that has not decreased and an `uploadTime` that is unchanged. -/
theorem SJ.recordView_videos_pointwise (s : SJ.State) (i c : String)
    (now : Nat) (j : String) (r : VideoRec) (hj : alookup s.videos j = some r) :
    ∃ r', alookup (SJ.recordView s i c now).2.videos j = some r' ∧
      r.views ≤ r'.views ∧ r'.uploadTime = r.uploadTime := by
  by_cases hi : i = ""
  · exact ⟨r, by simpa [SJ.recordView, hi] using hj, le_refl _, rfl⟩
  by_cases hmem : c ∈ (alookup (SJ.ensureIPs s.viewedIPs i) i).getD []
  · simp only [SJ.recordView, if_neg hi, if_pos hmem]
    by_cases hji : j = i
    · subst hji
      exact ⟨r, by simp [SJ.ensureVideo_of_some hj, hj], le_refl _, rfl⟩
    · exact ⟨r, by simp [SJ.alookup_ensureVideo_ne hji, hj], le_refl _, rfl⟩
  · simp only [SJ.recordView, if_neg hi, if_neg hmem, SJ.saveData]
    by_cases hji : j = i
    · subst hji
      refine ⟨{ r with views := r.views + 1 }, ?_, by simp, rfl⟩
      simp [alookup_aset_self, SJ.ensureVideo_of_some hj, hj]
    · refine ⟨r, ?_, le_refl _, rfl⟩
      simp [alookup_aset_ne _ _ _ _ hji, SJ.alookup_ensureVideo_ne hji, hj]

theorem SJ.NonNeg_recordView (s : SJ.State) (i c : String) (now : Nat)
    (h : SJ.NonNeg s) : SJ.NonNeg (SJ.recordView s i c now).2 := by
  by_cases hi : i = ""
  · simpa [SJ.recordView, hi] using h
  by_cases hmem : c ∈ (alookup (SJ.ensureIPs s.viewedIPs i) i).getD []
  · simp only [SJ.recordView, if_neg hi, if_pos hmem]
    intro j r' hj
    by_cases hji : j = i
    · subst hji
      cases hr : alookup s.videos j with
      | none =>
        rw [SJ.ensureVideo_of_none hr, alookup_aset_self] at hj
        cases hj
        simp
      | some r₀ =>
        rw [SJ.ensureVideo_of_some hr, hr] at hj
        cases hj
        exact h j r' hr
    · rw [SJ.alookup_ensureVideo_ne hji] at hj
      exact h j r' hj
  · simp only [SJ.recordView, if_neg hi, if_neg hmem, SJ.saveData]
    intro j r' hj
    by_cases hji : j = i
    · subst hji
      rw [alookup_aset_self] at hj
      cases hj
      cases hr : alookup s.videos j with
      | none =>
        simp only [SJ.ensureVideo_of_none hr, alookup_aset_self]
        simp
      | some r₀ =>
        simp only [SJ.ensureVideo_of_some hr, hr, Option.getD_some]
        have := h j r₀ hr
        simp
        omega
    · rw [alookup_aset_ne _ _ _ _ hji, SJ.alookup_ensureVideo_ne hji] at hj
      exact h j r' hj

theorem SJ.NonNeg_setViews (s : SJ.State) (i : String) (v : Option Int)
    (now : Nat) (h : SJ.NonNeg s) : SJ.NonNeg (SJ.setViews s i v now).2 := by
  by_cases hi : i = ""
  · simpa [SJ.setViews, hi] using h
  cases v with
  | none => simpa [SJ.setViews, hi] using h
  | some n =>
    by_cases hn : n < 0
    · simpa [SJ.setViews, hi, hn] using h
    · simp only [SJ.setViews, if_neg hi, if_neg hn, SJ.saveData]
      intro j r' hj
      by_cases hji : j = i
      · subst hji
        rw [alookup_aset_self] at hj
        cases hj
        simpa using le_of_not_lt hn
      · rw [alookup_aset_ne _ _ _ _ hji] at hj
        exact h j r' hj

theorem SJ.NonNeg_setUploadTime (s : SJ.State) (i : String) (t : Option Nat)
    (now : Nat) (h : SJ.NonNeg s) : SJ.NonNeg (SJ.setUploadTime s i t now).2 := by
  by_cases hi : i = ""
  · simpa [SJ.setUploadTime, hi] using h
  cases t with
  | none => simpa [SJ.setUploadTime, hi] using h
  | some t₀ =>
    by_cases ht : now < t₀
    · simpa [SJ.setUploadTime, hi, ht] using h
    · simp only [SJ.setUploadTime, if_neg hi, if_neg ht, SJ.saveData]
      intro j r' hj
      by_cases hji : j = i
      · subst hji
        rw [alookup_aset_self] at hj
        cases hr : alookup s.videos j with
        | none =>
          rw [hr] at hj
          cases hj
          simp
        | some r₀ =>
          rw [hr] at hj
          cases hj
          simpa using h j r₀ hr
      · rw [alookup_aset_ne _ _ _ _ hji] at hj
        exact h j r' hj

theorem SJ.NonNeg_deleteVideo (s : SJ.State) (i : String) (h : SJ.NonNeg s) :
    SJ.NonNeg (SJ.deleteVideo s i).2 := by
  by_cases hi : i = ""
  · simpa [SJ.deleteVideo, hi] using h
  cases hr : alookup s.videos i with
  | none => simpa [SJ.deleteVideo, hi, hr] using h
  | some r =>
    simp only [SJ.deleteVideo, if_neg hi, hr, SJ.saveData]
    intro j r' hj
    by_cases hji : j = i
    · subst hji
      rw [alookup_aerase_self] at hj
      cases hj
    · rw [alookup_aerase_ne _ _ _ hji] at hj
      exact h j r' hj

theorem SJ.NonNeg_bulkStep (now : Nat) (s : SJ.State) (u : String × Option Nat)
    (h : SJ.NonNeg s) : SJ.NonNeg (SJ.bulkStep now s u) := by
  obtain ⟨id, t⟩ := u
  cases t with
  | none => simpa [SJ.bulkStep] using h
  | some t₀ =>
    by_cases hid : id = ""
    · simpa [SJ.bulkStep, hid] using h
    by_cases ht : now < t₀
    · simpa [SJ.bulkStep, hid, ht] using h
    · simp only [SJ.bulkStep, if_neg hid, if_neg ht]
      intro j r' hj
      by_cases hji : j = id
      · subst hji
        rw [alookup_aset_self] at hj
        cases hr : alookup s.videos j with
        | none =>
          rw [hr] at hj
          cases hj
          simp
        | some r₀ =>
          rw [hr] at hj
          cases hj
          simpa using h j r₀ hr
      · rw [alookup_aset_ne _ _ _ _ hji] at hj
        exact h j r' hj

theorem SJ.NonNeg_bulkUpdateTimes (s : SJ.State)
    (us : List (String × Option Nat)) (now : Nat) (h : SJ.NonNeg s) :
    SJ.NonNeg (SJ.bulkUpdateTimes s us now) := by
  have hfold : ∀ (l : List (String × Option Nat)) (s₀ : SJ.State),
      SJ.NonNeg s₀ → SJ.NonNeg (l.foldl (SJ.bulkStep now) s₀) := by
    intro l
    induction l with
    | nil => intro s₀ h₀; simpa using h₀
    | cons u rest ih =>
      intro s₀ h₀
      exact ih _ (SJ.NonNeg_bulkStep now s₀ u h₀)
  exact hfold us s h

/-! ## Claims -/

/-- Claim C1 (code bug evaluation).  Starting from the empty state,
two sequential `recordView("1","ip1")` calls in `server.js` increase the
count by exactly 1 in total, but the response flag reads
`alreadyViewed = true` — i.e. `counted = false` — on BOTH calls,
including the first, counting one: the membership test that feeds the
response is evaluated after the client has been inserted into the Set,
so the flag the claim requires to be true exactly once is never true. -/
theorem C1_counted_flag_never_true :
    ((SJ.recordView ⟨[], [], none⟩ "1" "ip1" 5).1 = SJ.ViewResp.ok 1 true) ∧
    ((SJ.recordView (SJ.recordView ⟨[], [], none⟩ "1" "ip1" 5).2 "1" "ip1" 6).1
        = SJ.ViewResp.ok 1 true) ∧
    (alookup (SJ.recordView (SJ.recordView ⟨[], [], none⟩ "1" "ip1" 5).2
        "1" "ip1" 6).2.videos "1" = some { views := 1, uploadTime := some 5 }) := by
  decide

/-- Claim C2 (counterexample).  In `part_001`/`part_003`, a first view of
item `"7"` by `"ipX"` whose durable write fails is answered with a 500
error, yet the in-memory count stays incremented, the Dedup Index keeps
the `("7","ipX")` entry and the durable store is unchanged — the
rollback the claim requires does not happen. -/
theorem C2_counterexample :
    ((P1.recordView ⟨[("7", ⟨0, some 1, "Video 7", false⟩)], [], ⟨[("7", 0)], []⟩⟩
        "7" "ipX" 5 false).1 = P1.ViewResp.err500) ∧
    (alookup (P1.recordView ⟨[("7", ⟨0, some 1, "Video 7", false⟩)], [], ⟨[("7", 0)], []⟩⟩
        "7" "ipX" 5 false).2.videos "7" = some ⟨1, some 1, "Video 7", false⟩) ∧
    ("ipX" ∈ (alookup (P1.recordView ⟨[("7", ⟨0, some 1, "Video 7", false⟩)], [],
        ⟨[("7", 0)], []⟩⟩ "7" "ipX" 5 false).2.viewedIPs "7").getD []) ∧
    ((P1.recordView ⟨[("7", ⟨0, some 1, "Video 7", false⟩)], [], ⟨[("7", 0)], []⟩⟩
        "7" "ipX" 5 false).2.db = ⟨[("7", 0)], []⟩) := by
  decide

/-- Claim C2 (amended).  When the durable write of
`part_001`/`part_003`'s view route fails on a first-seen client, the
call is reported as failed (HTTP 500) and the durable store is left
untouched, but the in-memory increment and the Dedup Index entry are
retained, not rolled back. -/
theorem C2_failure_keeps_memory_mutation (s : P1.State) (i c : String)
    (now : Nat) (r : P1.VideoRec) (hr : alookup s.videos i = some r)
    (hc : c ∉ (alookup s.viewedIPs i).getD []) :
    (P1.recordView s i c now false).1 = P1.ViewResp.err500 ∧
    alookup (P1.recordView s i c now false).2.videos i
      = some { views := r.views + 1, uploadTime := r.uploadTime,
               title := r.title, loading := false } ∧
    c ∈ (alookup (P1.recordView s i c now false).2.viewedIPs i).getD [] ∧
    (P1.recordView s i c now false).2.db = s.db := by
  cases hips : alookup s.viewedIPs i with
  | none =>
    have hc' : c ∉ ([] : List String) := by simp
    simp only [P1.recordView, hr, hips, P1.setLoading, alookup_aset_self,
      Option.getD_some, Option.getD_none]
    simp [hc', alookup_aset_self, mem_sadd_self]
  | some cs =>
    have hc' : c ∉ cs := by simpa [hips] using hc
    simp only [P1.recordView, hr, hips, P1.setLoading, alookup_aset_self,
      Option.getD_some]
    simp [hc', alookup_aset_self, mem_sadd_self]

/-- Claim C3 (counterexample).  In `part_003`, `app.listen` is invoked in
the top-level synchronous script right after firing the asynchronous
`loadData()` (its `.catch` only logs), so the server starts accepting
requests before the load completes. -/
theorem C3_counterexample : loadBeforeListen part003Startup = false := by
  decide

/-- Claim C3 (amended).  `server.js` loads its data synchronously before
listening, and `part_001` starts listening only inside
`loadData().then(...)`, so in those two revisions the load completes (or
the server never starts) before any request is served; `part_003` lacks
this gating. -/
theorem C3_load_gates_listen_where_chained :
    loadBeforeListen serverJsStartup = true ∧
    loadBeforeListen part001Startup = true := by
  constructor <;> decide

/-- Claim C4 (counterexample).  In `part_002`, deleting item `"1"`
(whose client `"ip"` is in the Dedup Index) removes the item record but
leaves the Dedup Index entry behind — a dangling entry for a deleted
item is reachable — and a subsequent `recordView("1","ip")` is answered
`{views: 0, alreadyViewed: true}`: not counted, not "as if new". -/
theorem C4_counterexample :
    ((P2.deleteVideo ⟨[("1", ⟨3, some 10⟩)], [("1", ["ip"])], none⟩ "1").1
        = P2.DeleteResp.ok) ∧
    (alookup (P2.deleteVideo ⟨[("1", ⟨3, some 10⟩)], [("1", ["ip"])], none⟩
        "1").2.videos "1" = none) ∧
    (alookup (P2.deleteVideo ⟨[("1", ⟨3, some 10⟩)], [("1", ["ip"])], none⟩
        "1").2.viewedIPs "1" = some ["ip"]) ∧
    ((P2.recordView (P2.deleteVideo ⟨[("1", ⟨3, some 10⟩)], [("1", ["ip"])],
        none⟩ "1").2 "1" "ip" 20).1 = ⟨0, true⟩) := by
  decide

/-- Claim C4 (amended).  In `server.js`, deleting an existing item purges
both the item record and its Dedup Index entry, and a subsequent
`recordView` for any client behaves as if the item were new: a fresh
record is created and the view is counted (count 1, client inserted) —
though, as everywhere in this code base, the response flag reads
`alreadyViewed = true` rather than the `counted = true` the spec
words ask for.  `part_002`'s delete lacks the purge. -/
theorem C4_delete_purges_and_recounts (s : SJ.State) (i c : String) (now : Nat)
    (hi : i ≠ "") (hr : (alookup s.videos i).isSome) :
    (SJ.deleteVideo s i).1 = SJ.DeleteResp.ok ∧
    alookup (SJ.deleteVideo s i).2.videos i = none ∧
    alookup (SJ.deleteVideo s i).2.viewedIPs i = none ∧
    (SJ.recordView (SJ.deleteVideo s i).2 i c now).1 = SJ.ViewResp.ok 1 true ∧
    alookup (SJ.recordView (SJ.deleteVideo s i).2 i c now).2.videos i
      = some { views := 1, uploadTime := some now } ∧
    c ∈ (alookup (SJ.recordView (SJ.deleteVideo s i).2 i c now).2.viewedIPs i).getD [] := by
  obtain ⟨r, hr⟩ := Option.isSome_iff_exists.mp hr
  have hdel : SJ.deleteVideo s i =
      (SJ.DeleteResp.ok, SJ.saveData { s with
        videos := aerase s.videos i,
        viewedIPs := if (alookup s.viewedIPs i).isSome
                     then aerase s.viewedIPs i else s.viewedIPs }) := by
    simp [SJ.deleteVideo, hi, hr]
  have hvid : alookup (SJ.deleteVideo s i).2.videos i = none := by
    simp [hdel, SJ.saveData, alookup_aerase_self]
  have hips : alookup (SJ.deleteVideo s i).2.viewedIPs i = none := by
    by_cases h : (alookup s.viewedIPs i).isSome
    · simp [hdel, SJ.saveData, h, alookup_aerase_self]
    · simp only [Option.isSome_iff_exists] at h
      push_neg at h
      cases hh : alookup s.viewedIPs i with
      | none => simp [hdel, SJ.saveData, hh, Option.isSome_iff_exists]
      | some cs => exact absurd hh (h cs)
  refine ⟨by simp [hdel], hvid, hips, ?_⟩
  have hview : SJ.recordView (SJ.deleteVideo s i).2 i c now =
      (SJ.ViewResp.ok 1 true,
        SJ.saveData { (SJ.deleteVideo s i).2 with
          videos := aset (aset (SJ.deleteVideo s i).2.videos i
            { views := 0, uploadTime := some now }) i
            { views := 1, uploadTime := some now },
          viewedIPs := aset (aset (SJ.deleteVideo s i).2.viewedIPs i []) i [c] }) := by
    simp only [SJ.recordView, hi, SJ.ensureVideo_of_none hvid,
      SJ.ensureIPs_of_none hips, alookup_aset_self, Option.getD_some,
      if_neg hi]
    norm_num [SJ.saveData, alookup_aset_self, sadd]
  refine ⟨?_, ?_, ?_⟩
  · simp [hview]
  · simp [hview, SJ.saveData, alookup_aset_self]
  · simp [hview, SJ.saveData, alookup_aset_self]

/-- Claim C5 (counterexample).  `server.js` answers a `GET` for the
never-observed item `"42"` with the default record
`{views: 0, uploadTime: now}` — not with `NotFound` as the claim
requires. -/
theorem C5_counterexample :
    (SJ.getVideo ⟨[], [], none⟩ "42" 1000).1
      = SJ.GetResp.ok { views := 0, uploadTime := some 1000 } := by
  decide

/-- Claim C5 (amended).  `getState` is a pure read of the in-memory
table in every revision (the state, durable snapshot included, is
returned unchanged); `part_001` answers `NotFound` for an item that was
never observed, while `server.js` and `part_004` answer the default
record `{views: 0, uploadTime: now}` instead. -/
theorem C5_getState_pure_read :
    (∀ (s : SJ.State) (i : String) (now : Nat), (SJ.getVideo s i now).2 = s) ∧
    (∀ (s : P1.State) (i : String), (P1.getVideo s i).2 = s) ∧
    (∀ (s : P4.State) (i : String) (now : Nat), (P4.getVideo s i now).2 = s) ∧
    (∀ (s : P1.State) (i : String), alookup s.videos i = none →
      (P1.getVideo s i).1 = P1.GetResp.notFound) ∧
    (∀ (s : SJ.State) (i : String) (now : Nat), i ≠ "" →
      alookup s.videos i = none →
      (SJ.getVideo s i now).1 = SJ.GetResp.ok { views := 0, uploadTime := some now }) := by
  refine ⟨?_, ?_, ?_, ?_, ?_⟩
  · intro s i now
    by_cases h : i = "" <;> simp [SJ.getVideo, h]
  · intro s i
    cases h : alookup s.videos i <;> simp [P1.getVideo, h]
  · intro s i now
    simp [P4.getVideo]
  · intro s i h
    simp [P1.getVideo, h]
  · intro s i now hi h
    simp [SJ.getVideo, hi, h]

/-- Claim C5 (witness). -/
theorem C5_witness :
    (alookup ((⟨[], [], ⟨[], []⟩⟩ : P1.State)).videos "9" = none ∧
      (P1.getVideo ⟨[], [], ⟨[], []⟩⟩ "9").1 = P1.GetResp.notFound) ∧
    (("9" : String) ≠ "" ∧
      alookup ((⟨[], [], none⟩ : SJ.State)).videos "9" = none ∧
      (SJ.getVideo ⟨[], [], none⟩ "9" 7).1
        = SJ.GetResp.ok { views := 0, uploadTime := some 7 }) := by
  refine ⟨⟨by decide, C5_getState_pure_read.2.2.2.1 _ "9" (by decide)⟩,
    by decide, by decide, ?_⟩
  exact C5_getState_pure_read.2.2.2.2 (⟨[], [], none⟩ : SJ.State) "9" 7
    (by decide) (by decide)

/-- Claim C2 (witness). -/
theorem C2_witness :
    (alookup ((⟨[("7", ⟨2, some 1, "t", false⟩)], [("7", ["a"])], ⟨[], []⟩⟩ :
        P1.State)).videos "7" = some ⟨2, some 1, "t", false⟩ ∧
      "b" ∉ (alookup ((⟨[("7", ⟨2, some 1, "t", false⟩)], [("7", ["a"])],
        ⟨[], []⟩⟩ : P1.State)).viewedIPs "7").getD []) ∧
    ((P1.recordView ⟨[("7", ⟨2, some 1, "t", false⟩)], [("7", ["a"])], ⟨[], []⟩⟩
        "7" "b" 9 false).1 = P1.ViewResp.err500 ∧
      alookup (P1.recordView ⟨[("7", ⟨2, some 1, "t", false⟩)], [("7", ["a"])],
        ⟨[], []⟩⟩ "7" "b" 9 false).2.videos "7" = some ⟨3, some 1, "t", false⟩ ∧
      "b" ∈ (alookup (P1.recordView ⟨[("7", ⟨2, some 1, "t", false⟩)],
        [("7", ["a"])], ⟨[], []⟩⟩ "7" "b" 9 false).2.viewedIPs "7").getD [] ∧
      (P1.recordView ⟨[("7", ⟨2, some 1, "t", false⟩)], [("7", ["a"])], ⟨[], []⟩⟩
        "7" "b" 9 false).2.db = ⟨[], []⟩) := by
  refine ⟨⟨by decide, by decide⟩, ?_⟩
  have h := C2_failure_keeps_memory_mutation
    ⟨[("7", ⟨2, some 1, "t", false⟩)], [("7", ["a"])], ⟨[], []⟩⟩ "7" "b" 9
    ⟨2, some 1, "t", false⟩ (by decide) (by decide)
  simpa using h

/-- Claim C4 (witness). -/
theorem C4_witness :
    (("1" : String) ≠ "" ∧
      (alookup ((⟨[("1", ⟨3, some 10⟩)], [("1", ["ip"])], none⟩ :
        SJ.State)).videos "1").isSome) ∧
    ((SJ.deleteVideo ⟨[("1", ⟨3, some 10⟩)], [("1", ["ip"])], none⟩ "1").1
        = SJ.DeleteResp.ok ∧
      alookup (SJ.deleteVideo ⟨[("1", ⟨3, some 10⟩)], [("1", ["ip"])], none⟩
        "1").2.videos "1" = none ∧
      alookup (SJ.deleteVideo ⟨[("1", ⟨3, some 10⟩)], [("1", ["ip"])], none⟩
        "1").2.viewedIPs "1" = none ∧
      (SJ.recordView (SJ.deleteVideo ⟨[("1", ⟨3, some 10⟩)], [("1", ["ip"])],
        none⟩ "1").2 "1" "ip2" 50).1 = SJ.ViewResp.ok 1 true ∧
      alookup (SJ.recordView (SJ.deleteVideo ⟨[("1", ⟨3, some 10⟩)],
        [("1", ["ip"])], none⟩ "1").2 "1" "ip2" 50).2.videos "1"
        = some { views := 1, uploadTime := some 50 } ∧
      "ip2" ∈ (alookup (SJ.recordView (SJ.deleteVideo ⟨[("1", ⟨3, some 10⟩)],
        [("1", ["ip"])], none⟩ "1").2 "1" "ip2" 50).2.viewedIPs "1").getD []) := by
  refine ⟨⟨by decide, by decide⟩, ?_⟩
  exact C4_delete_purges_and_recounts
    ⟨[("1", ⟨3, some 10⟩)], [("1", ["ip"])], none⟩ "1" "ip2" 50
    (by decide) (by decide)

/-- Claim C6 (confirmed).  Every `server.js` operation preserves the
dangling-entry invariant (a Dedup Index entry implies an item record),
so in a reachable state a pair already present in the index has its
record; and for such a pair `recordView` answers the current `viewCount`
with `alreadyViewed = true` (i.e. `counted = false`) and leaves the
whole state — item table, Dedup Index and persisted data file —
unchanged: an idempotent no-op with no durable write. -/
theorem C6_duplicate_view_is_noop :
    (∀ (s : SJ.State) (i c : String) (now : Nat),
      SJ.Inv s → SJ.Inv (SJ.recordView s i c now).2) ∧
    (∀ (s : SJ.State) (i : String) (v : Option Int) (now : Nat),
      SJ.Inv s → SJ.Inv (SJ.setViews s i v now).2) ∧
    (∀ (s : SJ.State) (i : String) (t : Option Nat) (now : Nat),
      SJ.Inv s → SJ.Inv (SJ.setUploadTime s i t now).2) ∧
    (∀ (s : SJ.State) (i : String), SJ.Inv s → SJ.Inv (SJ.deleteVideo s i).2) ∧
    (∀ (s : SJ.State) (us : List (String × Option Nat)) (now : Nat),
      SJ.Inv s → SJ.Inv (SJ.bulkUpdateTimes s us now)) ∧
    (∀ (s : SJ.State) (i c : String) (now : Nat), i ≠ "" → SJ.Inv s →
      c ∈ (alookup s.viewedIPs i).getD [] →
      SJ.recordView s i c now =
        (SJ.ViewResp.ok
          ((alookup s.videos i).getD { views := 0, uploadTime := none }).views
          true, s)) ∧
    (∀ (s : P1.State) (i c : String) (now : Nat) (ok : Bool) (r : P1.VideoRec)
      (cs : List String), alookup s.videos i = some r → r.loading = false →
      alookup s.viewedIPs i = some cs → c ∈ cs →
      P1.recordView s i c now ok = (P1.ViewResp.ok r.views true, s)) :=
  ⟨SJ.Inv_recordView, SJ.Inv_setViews, SJ.Inv_setUploadTime, SJ.Inv_deleteVideo,
   SJ.Inv_bulkUpdateTimes, SJ.recordView_seen_noop, P1.recordView_duplicate_noop⟩

/-- Claim C6 (witness). -/
theorem C6_witness :
    SJ.Inv ⟨[("1", ⟨2, some 3⟩)], [("1", ["ip"])], none⟩ ∧
    "ip" ∈ (alookup ((⟨[("1", ⟨2, some 3⟩)], [("1", ["ip"])], none⟩ :
      SJ.State)).viewedIPs "1").getD [] ∧
    SJ.recordView ⟨[("1", ⟨2, some 3⟩)], [("1", ["ip"])], none⟩ "1" "ip" 9 =
      (SJ.ViewResp.ok 2 true, ⟨[("1", ⟨2, some 3⟩)], [("1", ["ip"])], none⟩) ∧
    P1.recordView ⟨[("1", ⟨2, some 3, "t", false⟩)], [("1", ["ip"])], ⟨[], []⟩⟩
        "1" "ip" 9 false
      = (P1.ViewResp.ok 2 true,
         ⟨[("1", ⟨2, some 3, "t", false⟩)], [("1", ["ip"])], ⟨[], []⟩⟩) := by
  have hinv : SJ.Inv ⟨[("1", ⟨2, some 3⟩)], [("1", ["ip"])], none⟩ := by
    intro j hj
    by_cases h : ("1" : String) = j <;> simp [alookup, h] at hj ⊢
  refine ⟨hinv, by decide, ?_, ?_⟩
  · have h := C6_duplicate_view_is_noop.2.2.2.2.2.1
      ⟨[("1", ⟨2, some 3⟩)], [("1", ["ip"])], none⟩ "1" "ip" 9
      (by decide) hinv (by decide)
    simpa using h
  · have h := C6_duplicate_view_is_noop.2.2.2.2.2.2
      ⟨[("1", ⟨2, some 3, "t", false⟩)], [("1", ["ip"])], ⟨[], []⟩⟩ "1" "ip" 9
      false ⟨2, some 3, "t", false⟩ ["ip"] (by decide) (by decide) (by decide)
      (by decide)
    simpa using h

/-- Claim C7 (counterexample).  The admin `set-views` endpoint breaks
monotonicity and, in `part_002`, non-negativity: in `server.js` a stored
count of 5 is lowered to 3, and `part_002` (which skips the `< 0` check)
stores `-5`. -/
theorem C7_counterexample :
    (alookup (SJ.setViews ⟨[("1", ⟨5, some 10⟩)], [], none⟩ "1" (some 3)
        50).2.videos "1" = some ⟨3, some 10⟩) ∧ ((3 : Int) < 5) ∧
    (alookup (P2.setViews ⟨[("1", ⟨5, some 10⟩)], [], none⟩ "1" (some (-5))
        50).2.videos "1" = some ⟨-5, some 10⟩) ∧ ((-5 : Int) < 0) := by
  decide

/-- Claim C7 (amended).  Every `server.js` operation preserves
non-negativity of all stored view counts (its `set-views` rejects
negative input), and `recordView` never decreases any stored count; the
claimed all-operation monotonicity fails only at the admin `set-views`
override (and `part_001`/`part_002` accept even negative values there). -/
theorem C7_nonneg_and_recordView_monotone :
    (∀ (s : SJ.State) (i c : String) (now : Nat),
      SJ.NonNeg s → SJ.NonNeg (SJ.recordView s i c now).2) ∧
    (∀ (s : SJ.State) (i : String) (v : Option Int) (now : Nat),
      SJ.NonNeg s → SJ.NonNeg (SJ.setViews s i v now).2) ∧
    (∀ (s : SJ.State) (i : String) (t : Option Nat) (now : Nat),
      SJ.NonNeg s → SJ.NonNeg (SJ.setUploadTime s i t now).2) ∧
    (∀ (s : SJ.State) (i : String),
      SJ.NonNeg s → SJ.NonNeg (SJ.deleteVideo s i).2) ∧
    (∀ (s : SJ.State) (us : List (String × Option Nat)) (now : Nat),
      SJ.NonNeg s → SJ.NonNeg (SJ.bulkUpdateTimes s us now)) ∧
    (∀ (s : SJ.State) (i c : String) (now : Nat) (j : String) (r : VideoRec),
      alookup s.videos j = some r →
      ∃ r', alookup (SJ.recordView s i c now).2.videos j = some r' ∧
        r.views ≤ r'.views) :=
  ⟨SJ.NonNeg_recordView, SJ.NonNeg_setViews, SJ.NonNeg_setUploadTime,
   SJ.NonNeg_deleteVideo, SJ.NonNeg_bulkUpdateTimes,
   fun s i c now j r hj => by
     obtain ⟨r', h1, h2, _⟩ := SJ.recordView_videos_pointwise s i c now j r hj
     exact ⟨r', h1, h2⟩⟩

/-- Claim C7 (witness). -/
theorem C7_witness :
    (alookup ((⟨[("1", ⟨2, some 3⟩)], [], none⟩ : SJ.State)).videos "1"
        = some ⟨2, some 3⟩) ∧
    (∃ r', alookup (SJ.recordView ⟨[("1", ⟨2, some 3⟩)], [], none⟩ "1" "ip"
        9).2.videos "1" = some r' ∧ (2 : Int) ≤ r'.views) := by
  refine ⟨by decide, ?_⟩
  have h := C7_nonneg_and_recordView_monotone.2.2.2.2.2
    ⟨[("1", ⟨2, some 3⟩)], [], none⟩ "1" "ip" 9 "1" ⟨2, some 3⟩ (by decide)
  simpa using h

/-- Claim C8 (counterexample).  At current time 1000, `server.js`'s
admin `set-upload-time` rewrites an existing record's timestamp from 100
to 50 (so the creation timestamp is not "set once, never modified"), and
`part_004`'s variant of the same endpoint stores the future timestamp
2000 > 1000 without any validation. -/
theorem C8_counterexample :
    (alookup (SJ.setUploadTime ⟨[("1", ⟨0, some 100⟩)], [], none⟩ "1" (some 50)
        1000).2.videos "1" = some ⟨0, some 50⟩) ∧
    (alookup (P4.setUploadTime ⟨[], [], none⟩ "1" (some 2000)).2.videos "1"
        = some ⟨0, some 2000⟩) ∧ ((1000 : Nat) < 2000) := by
  decide

/-- Claim C8 (amended).  `recordView` never modifies an existing
record's `uploadTime`, and `server.js`'s admin `set-upload-time` rejects
future timestamps and stores only values `≤ now` — but it does rewrite
the timestamp of an existing record, and `part_004`'s variant stores any
supplied value, including future ones. -/
theorem C8_uploadTime_rewritable :
    (∀ (s : SJ.State) (i : String) (t now : Nat), now < t →
      SJ.setUploadTime s i (some t) now = (SJ.SetTimeResp.badRequest, s)) ∧
    (∀ (s : SJ.State) (i : String) (t now : Nat), i ≠ "" → t ≤ now →
      ∃ r', alookup (SJ.setUploadTime s i (some t) now).2.videos i = some r' ∧
        r'.uploadTime = some t) ∧
    (∀ (s : SJ.State) (i c : String) (now : Nat) (j : String) (r : VideoRec),
      alookup s.videos j = some r →
      ∃ r', alookup (SJ.recordView s i c now).2.videos j = some r' ∧
        r'.uploadTime = r.uploadTime) ∧
    (∀ (s : P4.State) (i : String) (t : Option Nat),
      ∃ r', alookup (P4.setUploadTime s i t).2.videos i = some r' ∧
        r'.uploadTime = t) := by
  refine ⟨?_, ?_, ?_, ?_⟩
  · intro s i t now ht
    by_cases hi : i = "" <;> simp [SJ.setUploadTime, hi, ht]
  · intro s i t now hi ht
    have ht' : ¬ now < t := not_lt.mpr ht
    cases hr : alookup s.videos i with
    | none =>
      refine ⟨⟨0, some t⟩, ?_, rfl⟩
      simp [SJ.setUploadTime, hi, ht', hr, SJ.saveData, alookup_aset_self]
    | some r =>
      refine ⟨{ r with uploadTime := some t }, ?_, rfl⟩
      simp [SJ.setUploadTime, hi, ht', hr, SJ.saveData, alookup_aset_self]
  · intro s i c now j r hj
    obtain ⟨r', h1, _, h3⟩ := SJ.recordView_videos_pointwise s i c now j r hj
    exact ⟨r', h1, h3⟩
  · intro s i t
    cases hr : alookup s.videos i with
    | none =>
      refine ⟨⟨0, t⟩, ?_, rfl⟩
      simp [P4.setUploadTime, hr, P4.saveData, alookup_aset_self]
    | some r =>
      refine ⟨{ r with uploadTime := t }, ?_, rfl⟩
      simp [P4.setUploadTime, hr, P4.saveData, alookup_aset_self]

/-- Claim C8 (witness). -/
theorem C8_witness :
    ((1000 : Nat) < 2000 ∧
      SJ.setUploadTime ⟨[], [], none⟩ "7" (some 2000) 1000
        = (SJ.SetTimeResp.badRequest, ⟨[], [], none⟩)) ∧
    (("7" : String) ≠ "" ∧ (50 : Nat) ≤ 1000 ∧
      ∃ r', alookup (SJ.setUploadTime ⟨[], [], none⟩ "7" (some 50)
        1000).2.videos "7" = some r' ∧ r'.uploadTime = some 50) := by
  refine ⟨⟨by decide, C8_uploadTime_rewritable.1 _ "7" 2000 1000 (by decide)⟩,
    by decide, by decide,
    C8_uploadTime_rewritable.2.1 _ "7" 50 1000 (by decide) (by decide)⟩

/-- Claim C9 (confirmed).  In `part_002`, starting from a state where
the Dedup Index holds `(i, c)` but no record exists for `i` (exactly
what `part_002`'s delete leaves behind), `recordView(i, c)` creates a
fresh record with `views = 0`, answers `{views: 0, alreadyViewed: true}`
(the view is not counted), and changes neither the Dedup Index nor the
persisted file — the count stays 0. -/
theorem C9_dangling_entry_not_recounted (s : P2.State) (i c : String)
    (now : Nat) (hr : alookup s.videos i = none)
    (hc : c ∈ (alookup s.viewedIPs i).getD []) :
    (P2.recordView s i c now).1 = ⟨0, true⟩ ∧
    alookup (P2.recordView s i c now).2.videos i
      = some { views := 0, uploadTime := some now } ∧
    (P2.recordView s i c now).2.viewedIPs = s.viewedIPs ∧
    (P2.recordView s i c now).2.ipsFile = s.ipsFile := by
  cases hips : alookup s.viewedIPs i with
  | none => simp [hips] at hc
  | some cs =>
    have hc' : c ∈ cs := by simpa [hips] using hc
    simp only [P2.recordView, hr, hips, Option.getD_some, if_pos hc',
      alookup_aset_self]
    simp [hc']

/-- Claim C9 (witness). -/
theorem C9_witness :
    (alookup ((⟨[], [("1", ["ip"])], none⟩ : P2.State)).videos "1" = none ∧
      "ip" ∈ (alookup ((⟨[], [("1", ["ip"])], none⟩ :
        P2.State)).viewedIPs "1").getD []) ∧
    ((P2.recordView ⟨[], [("1", ["ip"])], none⟩ "1" "ip" 20).1 = ⟨0, true⟩ ∧
      alookup (P2.recordView ⟨[], [("1", ["ip"])], none⟩ "1" "ip" 20).2.videos
        "1" = some { views := 0, uploadTime := some 20 } ∧
      (P2.recordView ⟨[], [("1", ["ip"])], none⟩ "1" "ip" 20).2.viewedIPs
        = [("1", ["ip"])] ∧
      (P2.recordView ⟨[], [("1", ["ip"])], none⟩ "1" "ip" 20).2.ipsFile
        = none) := by
  refine ⟨⟨by decide, by decide⟩, ?_⟩
  have h := C9_dangling_entry_not_recounted ⟨[], [("1", ["ip"])], none⟩
    "1" "ip" 20 (by decide) (by decide)
  simpa using h

/-- Claim C10 (confirmed).  Deleting an item with no record answers
`NotFound` and leaves the entire state — item table, Dedup Index and
durable file — exactly as it was, in `server.js` and in `part_002`. -/
theorem C10_delete_missing_is_noop :
    (∀ (s : SJ.State) (i : String), i ≠ "" → alookup s.videos i = none →
      SJ.deleteVideo s i = (SJ.DeleteResp.notFound, s)) ∧
    (∀ (s : P2.State) (i : String), alookup s.videos i = none →
      P2.deleteVideo s i = (P2.DeleteResp.notFound, s)) := by
  constructor
  · intro s i hi hr
    simp [SJ.deleteVideo, hi, hr]
  · intro s i hr
    simp [P2.deleteVideo, hr]

/-- Claim C10 (witness). -/
theorem C10_witness :
    (("9" : String) ≠ "" ∧
      alookup ((⟨[("1", ⟨2, some 3⟩)], [], none⟩ : SJ.State)).videos "9" = none ∧
      SJ.deleteVideo ⟨[("1", ⟨2, some 3⟩)], [], none⟩ "9"
        = (SJ.DeleteResp.notFound, ⟨[("1", ⟨2, some 3⟩)], [], none⟩)) ∧
    (alookup ((⟨[], [], none⟩ : P2.State)).videos "9" = none ∧
      P2.deleteVideo ⟨[], [], none⟩ "9"
        = (P2.DeleteResp.notFound, ⟨[], [], none⟩)) := by
  refine ⟨⟨by decide, by decide,
      C10_delete_missing_is_noop.1 _ "9" (by decide) (by decide)⟩,
    by decide, C10_delete_missing_is_noop.2 _ "9" (by decide)⟩

end Veezy
